import Mathlib

/-!
# Verification of the arcstats-viewer stats pipeline

A shallow embedding of the core logic of `arcstats_viewer/main.py`:
the unit formatter `human_readable`, the parsing loop of `update_store`,
the aggregation and history logic of `update_summary`, and the error
path `update_ui_on_error` / `refresh_stats` / `load_arcstats`.

Python `float` arithmetic is modelled with `ℚ`: every division the
formatter performs is by the power of two 1024, hence exact in binary
floating point for the magnitudes at issue, and the fixed-point
renderings proved here involve only exactly representable values.
Python string operations (`splitlines`, `split(": ", 1)`, `strip`,
`int(...)`) are modelled by structurally recursive functions on the
character list of the string, so that concrete runs reduce inside the
kernel.
-/

namespace ArcStats

/-- The sysctl key namespace (named `ARCSTATS_PREFIX` in the source). -/
def ARCSTATS_BASE : String := "kstat.zfs.misc.arcstats"

/-- Key of the ARC hit counter (`ARC_HITS`). -/
def ARC_HITS : String := ARCSTATS_BASE ++ ".hits"

/-- Key of the ARC miss counter (`ARC_MISSES`). -/
def ARC_MISSES : String := ARCSTATS_BASE ++ ".misses"

/-- Key of the ARC size statistic (`ARC_SIZE`). -/
def ARC_SIZE : String := ARCSTATS_BASE ++ ".size"

/-- The constant `LOW_RATIO_THRESHOLD = 90` from the source. -/
def LOW_RATIO_THRESHOLD : ℚ := 90

/-! ## Numeric rendering helpers

Python's fixed-point format `f"{v:.df}"` rounds the value to `d`
decimal places with ties going to the even last digit, then prints
sign, integer part, a dot, and `d` fractional digits. -/

/-- Round a rational to the nearest integer, ties to even
(the rounding used by Python fixed-point formatting). -/
def roundHalfEven (q : ℚ) : ℤ :=
  let f : ℤ := ⌊q⌋
  let r : ℚ := q - f
  if r < 1/2 then f
  else if 1/2 < r then f + 1
  else if f % 2 = 0 then f else f + 1

/-- Decimal digits of a natural number, most significant first. -/
def natDigits (n : ℕ) : String :=
  String.mk (Nat.toDigits 10 n)

/-- Python `f"{v:.1f}"`: one decimal place, sign preserved.
(The width-3 minimum of `f"{v:3.1f}"` never pads, since every
one-decimal rendering is at least three characters wide.) -/
def fmt1 (q : ℚ) : String :=
  let t := roundHalfEven (q * 10)
  let sign := if t < 0 then "-" else ""
  let a := t.natAbs
  sign ++ natDigits (a / 10) ++ "." ++ natDigits (a % 10)

/-- Python `f"{v:.2f}"`: two decimal places, sign preserved. -/
def fmt2 (q : ℚ) : String :=
  let t := roundHalfEven (q * 100)
  let sign := if t < 0 then "-" else ""
  let a := t.natAbs
  let fp := a % 100
  sign ++ natDigits (a / 100) ++ "." ++
    (if fp < 10 then "0" else "") ++ natDigits fp

/-- Groups of three characters, taken from the front of the list. -/
def chunks3 : List Char → List (List Char)
  | [] => []
  | a :: b :: c :: t => [a, b, c] :: chunks3 t
  | l => [l]

/-- Python `f"{n:,}"`: decimal rendering with thousands separators,
sign preserved. -/
def commaSep (n : ℤ) : String :=
  let sign := if n < 0 then "-" else ""
  let ds := (Nat.toDigits 10 n.natAbs).reverse
  sign ++ String.mk ((List.intercalate [','] (chunks3 ds)).reverse)

/-! ## The unit formatter `human_readable` -/

/-- The prefix cycle `['', 'K', 'M', 'G', 'T']` of `human_readable`. -/
def hrUnits : List String := ["", "K", "M", "G", "T"]

/-- The division loop of `human_readable` acting on the float value:
while the magnitude is at least 1024 and prefixes remain, divide by
1024; return the final value and the selected prefix (`"P"` once the
list is exhausted). This value computation is total: only the loop's
very first division acts on the original `int` (and can raise, see
`human_readable`); dividing a Python float by `1024.0` cannot raise,
and the magnitude test compares exactly. -/
def hrLoop : List String → ℚ → ℚ × String
  | [], q => (q, "P")
  | x :: xs, q => if |q| < 1024 then (q, x) else hrLoop xs (q / 1024)

/-- The value-and-rendering computation of `human_readable(n, unit)`:
repeated division by 1024 through the prefixes `'' K M G T`, fallback
`P`, one decimal place, over the exact rational model of the float
arithmetic. Total by construction; the `OverflowError` the source can
raise at the first division is layered on top in `human_readable`. -/
def hrFormat (n : ℤ) (unit : String) : String :=
  fmt1 (hrLoop hrUnits (n : ℚ)).1 ++ " " ++ (hrLoop hrUnits (n : ℚ)).2 ++ unit

/-- The largest magnitude bound for Python's int-to-float conversion,
as a literal: `floatConvBound = 2 ^ 1024 - 2 ^ 970` (proved in
`floatConvBound_eq`). Doubles top out at `2 ^ 1024 - 2 ^ 971`;
conversion rounds to nearest with ties to even and raises
`OverflowError` exactly when the rounded value reaches `2 ^ 1024`,
i.e. from the midpoint `2 ^ 1024 - 2 ^ 970` (a tie resolved to the
even `2 ^ 1024`) upward. So `int(n)` converts iff
`|n| < floatConvBound`. -/
def floatConvBound : ℤ := 179769313486231580793728971405303415079934132710037826936173778980444968292764750946649017977587207096330286416692887910946555547851940402630657488671505820681908902000708383676273854845817711531764475730270069855571366959622842914819860834936475292719074168444365510704342711559699508093042880177904174497792

/-- `human_readable(n, unit)` from the source, with its error path:
the loop's first division `n /= 1024.0` happens while `n` is still
the original `int` — reached exactly when `|n| ≥ 1024`, since
`abs(n) < 1024.0` compares an int to a float exactly and raises
nothing — and raises `OverflowError` when `|n|` cannot convert to a
double (`floatConvBound ≤ |n|`); every later division acts on a
float and cannot raise. `none` models the raised `OverflowError`;
on `some` the rendering is `hrFormat`. -/
def human_readable (n : ℤ) (unit : String) : Option String :=
  if |n| < 1024 then some (hrFormat n unit)
  else if |n| < floatConvBound then some (hrFormat n unit)
  else none

/-! ## String processing of `update_store`

`output.splitlines()`, `line.split(": ", 1)`, `.strip()` and
`int(val_str)` modelled on character lists. -/

/-- Python `str.splitlines` restricted to `'\n'` line boundaries,
on character lists: a trailing newline does not open an empty final
line. -/
def splitlinesAux : List Char → List Char → List (List Char)
  | [], acc => if acc.isEmpty then [] else [acc.reverse]
  | c :: cs, acc =>
      if c = '\n' then acc.reverse :: splitlinesAux cs []
      else splitlinesAux cs (c :: acc)

/-- Python `output.splitlines()`. -/
def splitlines (s : String) : List String :=
  (splitlinesAux s.data []).map String.mk

/-- Python `line.split(": ", 1)` on character lists: split at the
first occurrence of `": "`, returning the part before it and all of
the rest; `none` when the separator does not occur (which is exactly
Python's `": " in line` test being false). -/
def splitSepList : List Char → Option (List Char × List Char)
  | [] => none
  | c :: rest =>
      if c = ':' ∧ rest.take 1 = [' '] then some ([], rest.drop 1)
      else
        match splitSepList rest with
        | some pq => some (c :: pq.1, pq.2)
        | none => none

/-- Python `line.split(": ", 1)` as an optional pair of strings. -/
def splitSep (l : String) : Option (String × String) :=
  (splitSepList l.data).map (fun pq => (String.mk pq.1, String.mk pq.2))

/-- Python `": " in line`. -/
def hasSep (l : String) : Bool :=
  (splitSep l).isSome

/-- Python `str.strip()`: drop whitespace from both ends. -/
def pyStrip (s : String) : String :=
  String.mk (((s.data.dropWhile Char.isWhitespace).reverse.dropWhile
    Char.isWhitespace).reverse)

/-- Digits of a character list read as a natural number (caller
guarantees all characters are decimal digits). -/
def digitsToNat (l : List Char) : ℕ :=
  l.foldl (fun a c => 10 * a + (c.toNat - 48)) 0

/-- Python `int(s)` on an already-stripped string: optional sign
followed by at least one decimal digit; `none` models the
`ValueError` branch. -/
def parseInt? (s : String) : Option ℤ :=
  match s.data with
  | '-' :: rest =>
      if !rest.isEmpty && rest.all Char.isDigit then some (-(digitsToNat rest : ℤ))
      else none
  | '+' :: rest =>
      if !rest.isEmpty && rest.all Char.isDigit then some (digitsToNat rest : ℤ)
      else none
  | l =>
      if !l.isEmpty && l.all Char.isDigit then some (digitsToNat l : ℤ)
      else none

/-- One significant line of `update_store`'s loop: split at `": "`,
then `strip` both parts (`none` for a line without the separator,
which the loop skips). -/
def parseLine (l : String) : Option (String × String) :=
  (splitSep l).map (fun kv => (pyStrip kv.1, pyStrip kv.2))

/-- All parsed `key: value` pairs of a raw output, in line order
(the `StatLine` sequence of one snapshot). -/
def entriesOf (out : String) : List (String × String) :=
  (splitlines out).filterMap parseLine

/-- The display string `update_store` appends to the table store for
one value: numeric values render via `human_readable` or thousands
separators depending on the unit toggle, non-numeric values pass
through unchanged. The pipeline renders through the total `hrFormat`,
which agrees with `human_readable` on every float-convertible value
(`human_readable_eq_hrFormat`); a parsed integer at or beyond
`floatConvBound` would instead propagate the `OverflowError` out of
`update_store` in the source. -/
def displayVal (toggle : Bool) (v : String) : String :=
  match parseInt? v with
  | some n => if toggle then hrFormat n "B" else commaSep n
  | none => v

/-- The parsing loop of `update_store`: builds the table store (key,
display value) and the dict `numeric_stats` (key, integer), both in
line order; only integer-parsing values enter `numeric_stats`. -/
def updateStoreCore (toggle : Bool) (out : String) :
    List (String × String) × List (String × ℤ) :=
  (entriesOf out).foldl
    (fun acc kv =>
      match parseInt? kv.2 with
      | some n => (acc.1 ++ [(kv.1, displayVal toggle kv.2)], acc.2 ++ [(kv.1, n)])
      | none => (acc.1 ++ [(kv.1, displayVal toggle kv.2)], acc.2))
    ([], [])

/-- Python `dict.get(k, d)` over the association list representing
`numeric_stats`: the last binding of a key wins (dict assignment
overwrites). -/
def dget (m : List (String × ℤ)) (k : String) (d : ℤ) : ℤ :=
  match m.reverse.find? (fun p => p.1 == k) with
  | some p => p.2
  | none => d

/-! ## Aggregation (`update_summary`) and the history buffer -/

/-- The summary figures `update_summary` derives from
`numeric_stats`. -/
structure DerivedMetrics where
  hits : ℤ
  misses : ℤ
  arcSize : ℤ
  total : ℤ
  ratio : ℚ

/-- The aggregation step of `update_summary`: the three well-known
keys looked up with default 0, `total = hits + misses`, and
`ratio = hits / total * 100` guarded by `total > 0` (else `0.0`). -/
def aggregate (m : List (String × ℤ)) : DerivedMetrics :=
  let size := dget m ARC_SIZE 0
  let hits := dget m ARC_HITS 0
  let misses := dget m ARC_MISSES 0
  let total := hits + misses
  ⟨hits, misses, size, total,
    if 0 < total then (hits : ℚ) / (total : ℚ) * 100 else 0⟩

/-- The low-ratio test of `update_summary`:
`ratio < LOW_RATIO_THRESHOLD and ratio > 0`. -/
def isLow (r : ℚ) : Bool :=
  decide (r < LOW_RATIO_THRESHOLD) && decide (0 < r)

/-- The plain summary line of `update_summary`. -/
def summaryText (toggle : Bool) (d : DerivedMetrics) : String :=
  let size_disp :=
    if toggle then hrFormat d.arcSize "B" else commaSep d.arcSize ++ " B"
  "ARC Size: " ++ size_disp ++ "    Hits: " ++ commaSep d.hits ++
    "    Misses: " ++ commaSep d.misses ++ "    Hit Ratio: " ++
    fmt2 d.ratio ++ "%"

/-- The markup `update_summary` writes to the summary label: the
summary line, wrapped in an orange bold span exactly when the
low-ratio test fires. -/
def summaryMarkup (toggle : Bool) (d : DerivedMetrics) : String :=
  let t := summaryText toggle d
  if isLow d.ratio then
    "<span foreground=\x27orange\x27 font_weight=\x27bold\x27>" ++ t ++ "</span>"
  else t

/-- One record of the chart history: the dict
`{'hits': ..., 'misses': ..., 'ratio': ...}` appended each
`update_summary`. -/
structure HistRec where
  hits : ℤ
  misses : ℤ
  ratio : ℚ

/-- The history update of `update_summary`: append, then drop the
oldest entry when the length exceeds 60 (`self.history.pop(0)`). -/
def pushHistory (h : List HistRec) (r : HistRec) : List HistRec :=
  let h2 := h ++ [r]
  if 60 < h2.length then h2.tail else h2

/-! ## The window state and its transitions -/

/-- The mutable state of `ArcStatsViewer` relevant to the pipeline:
the parsed stats, the history, the last raw output and its timestamp
(already rendered, as the code only ever formats it), the unit
toggle, the table store, and the two labels. -/
structure AppState where
  numeric_stats : List (String × ℤ)
  history : List HistRec
  last_output : String
  last_update_time : Option String
  unit_toggle : Bool
  store : List (String × String)
  summary_label : String
  refresh_label : String

/-- The state after `__init__` populates the fields (before the first
refresh). -/
def initState : AppState :=
  { numeric_stats := []
    history := []
    last_output := ""
    last_update_time := none
    unit_toggle := true
    store := []
    summary_label := "Summary will appear here."
    refresh_label := "Loading initial data..." }

/-- `update_summary`: aggregate `numeric_stats`, write the summary
markup, and append a history record. -/
def update_summary (s : AppState) : AppState :=
  let d := aggregate s.numeric_stats
  { s with
    summary_label := summaryMarkup s.unit_toggle d
    history := pushHistory s.history ⟨d.hits, d.misses, d.ratio⟩ }

/-- `update_store(output, update_time)`: record the raw output and
time, rebuild the store and `numeric_stats` from scratch, run
`update_summary`, and stamp the refresh label when a time is
present. -/
def update_store (s : AppState) (out : String) (t : Option String) : AppState :=
  let core := updateStoreCore s.unit_toggle out
  let s2 := update_summary
    { s with
      last_output := out
      last_update_time := t
      store := core.1
      numeric_stats := core.2 }
  match t with
  | some ts => { s2 with refresh_label := "Updated: " ++ ts }
  | none => s2

/-- `update_ui_on_error(error_message)`: only the two labels
change. -/
def update_ui_on_error (s : AppState) (msg : String) : AppState :=
  { s with refresh_label := "Update failed", summary_label := msg }

/-- The outcome of one `sysctl` invocation inside `load_arcstats`:
either its text output with the poll time, or the caught exception's
message. -/
inductive FetchResult where
  | ok (output : String) (time : String)
  | err (msg : String)

/-- `load_arcstats`: dispatch the fetch outcome to `update_store` or
to `update_ui_on_error` with the `"Error fetching stats: ..."`
message. -/
def load_arcstats (s : AppState) : FetchResult → AppState
  | .ok out t => update_store s out (some t)
  | .err e => update_ui_on_error s ("Error fetching stats: " ++ e)

/-- One scheduled tick: `refresh_stats` starts a load and returns
`True` (so GLib keeps the 5-second timer alive) regardless of the
outcome; the boolean of the pair is that return value. -/
def refresh_stats (s : AppState) (r : FetchResult) : AppState × Bool :=
  (load_arcstats { s with refresh_label := "🔄 Refreshing..." } r, true)

/-- `on_unit_toggled`: with the checkbox now in state `b`, re-run
`update_store` on the last output and time. -/
def on_unit_toggled (s : AppState) (b : Bool) : AppState :=
  update_store { s with unit_toggle := b } s.last_output s.last_update_time

/-! ## Helper lemmas -/

lemma roundHalfEven_le_floor_add_one (q : ℚ) : roundHalfEven q ≤ ⌊q⌋ + 1 := by
  rw [roundHalfEven]
  split_ifs <;> omega

lemma hrLoop_fst_le_neg_one :
    ∀ (xs : List String) (q : ℚ), q ≤ -1 → (hrLoop xs q).1 ≤ -1 := by
  intro xs
  induction xs with
  | nil => intro q h; exact h
  | cons x xs ih =>
    intro q h
    rw [hrLoop]
    by_cases hq : |q| < 1024
    · rw [if_pos hq]; exact h
    · rw [if_neg hq]
      apply ih
      have habs : |q| = -q := abs_of_neg (lt_of_le_of_lt h (by norm_num))
      have h1024 : q ≤ -1024 := by
        have := le_of_not_lt hq
        rw [habs] at this
        linarith
      rw [div_le_iff₀ (by norm_num : (0:ℚ) < 1024)]
      linarith

lemma fmt1_of_le_neg_one (q : ℚ) (h : q ≤ -1) : ∃ r, fmt1 q = "-" ++ r := by
  have h10 : q * 10 ≤ -10 := by linarith
  have hf : ⌊q * 10⌋ ≤ -10 := by
    calc ⌊q * 10⌋ ≤ ⌊(-10 : ℚ)⌋ := Int.floor_le_floor h10
    _ = -10 := by norm_num
  have ht : roundHalfEven (q * 10) < 0 := by
    have := roundHalfEven_le_floor_add_one (q * 10)
    omega
  refine ⟨natDigits ((roundHalfEven (q * 10)).natAbs / 10) ++ "." ++
    natDigits ((roundHalfEven (q * 10)).natAbs % 10), ?_⟩
  rw [fmt1]
  simp only [if_pos ht]
  simp [String.append_assoc]

lemma hrLoop_closed (xs : List String) (q : ℚ) :
    ∃ k, k ≤ xs.length ∧
      hrLoop xs q = (q / 1024 ^ k, (xs ++ ["P"]).getD k "P") := by
  induction xs generalizing q with
  | nil => exact ⟨0, le_refl 0, by simp [hrLoop]⟩
  | cons x xs ih =>
    by_cases hq : |q| < 1024
    · exact ⟨0, Nat.zero_le _, by rw [hrLoop, if_pos hq]; simp⟩
    · obtain ⟨k, hk, heq⟩ := ih (q / 1024)
      refine ⟨k + 1, by simp; omega, ?_⟩
      rw [hrLoop, if_neg hq, heq]
      have : q / 1024 / 1024 ^ k = q / 1024 ^ (k + 1) := by
        rw [div_div, ← pow_succ']
      rw [this]
      rfl

lemma floatConvBound_eq : floatConvBound = 2 ^ 1024 - 2 ^ 970 := by
  norm_num [floatConvBound]

lemma human_readable_eq_hrFormat (n : ℤ) (u : String)
    (h : |n| < floatConvBound) : human_readable n u = some (hrFormat n u) := by
  rw [human_readable]
  by_cases h1 : |n| < 1024
  · rw [if_pos h1]
  · rw [if_neg h1, if_pos h]

lemma hrFormat_zero : hrFormat 0 "B" = "0.0 B" := by
  have h1 : hrLoop hrUnits ((0 : ℤ) : ℚ) = (0, "") := by
    rw [hrUnits, hrLoop, if_pos (by rw [abs_lt]; constructor <;> norm_num)]
    norm_num
  rw [hrFormat, h1]
  have h2 : roundHalfEven ((0 : ℚ) * 10) = 0 := by rw [roundHalfEven]; norm_num
  rw [fmt1, h2]
  decide

lemma hrFormat_1536 : hrFormat 1536 "B" = "1.5 KB" := by
  have h1 : hrLoop hrUnits ((1536 : ℤ) : ℚ) = (3 / 2, "K") := by
    rw [hrUnits, hrLoop, if_neg (by rw [not_lt, le_abs]; left; norm_num),
      hrLoop, if_pos (by rw [abs_lt]; constructor <;> norm_num)]
    norm_num
  rw [hrFormat, h1]
  have h2 : roundHalfEven ((3 / 2 : ℚ) * 10) = 15 := by
    rw [roundHalfEven]; norm_num
  rw [fmt1, h2]
  decide

lemma hrFormat_neg2048 : hrFormat (-2048) "B" = "-2.0 KB" := by
  have h1 : hrLoop hrUnits ((-2048 : ℤ) : ℚ) = (-2, "K") := by
    rw [hrUnits, hrLoop, if_neg (by rw [not_lt, le_abs]; right; norm_num),
      hrLoop, if_pos (by rw [abs_lt]; constructor <;> norm_num)]
    norm_num
  rw [hrFormat, h1]
  have h2 : roundHalfEven ((-2 : ℚ) * 10) = -20 := by
    rw [roundHalfEven]; norm_num
  rw [fmt1, h2]
  decide

/-! ## Claim theorems -/

/-- C6 counterexample: the claim promises no error on any negative
input, but the formatter raises `OverflowError` on a negative integer
beyond double range: at `-(2 ^ 1100)` the loop body is reached and
the first division `n /= 1024.0` fails to convert the int, so no
string is returned at all (in particular no minus-prefixed one). -/
theorem human_readable_neg_overflow :
    human_readable (-(2 ^ 1100)) "B" = none := by
  have h1 : ¬ |(-(2 ^ 1100) : ℤ)| < 1024 := by
    rw [abs_neg, abs_of_nonneg (by positivity)]
    norm_num
  have h2 : ¬ |(-(2 ^ 1100) : ℤ)| < floatConvBound := by
    rw [abs_neg, abs_of_nonneg (by positivity), floatConvBound_eq]
    norm_num
  rw [human_readable, if_neg h1, if_neg h2]

/-- C6 (amended): the human-readable formatter divides by 1024
through the prefixes, renders one decimal place, and preserves sign:
`format(0) = "0.0 B"`, `format(1536) = "1.5 KB"`,
`format(-2048) = "-2.0 KB"`, and every negative input within the
float-convertible range (`|n| < 2 ^ 1024 - 2 ^ 970`) renders without
error and with a leading minus sign; beyond that range the first
division raises `OverflowError`. -/
theorem human_readable_values_and_sign :
    human_readable 0 "B" = some "0.0 B" ∧
    human_readable 1536 "B" = some "1.5 KB" ∧
    human_readable (-2048) "B" = some "-2.0 KB" ∧
    ∀ n : ℤ, -floatConvBound < n → n < 0 →
      ∃ r : String, human_readable n "B" = some ("-" ++ r) := by
  refine ⟨?_, ?_, ?_, ?_⟩
  · rw [human_readable_eq_hrFormat 0 "B" (by decide), hrFormat_zero]
  · rw [human_readable_eq_hrFormat 1536 "B" (by decide), hrFormat_1536]
  · rw [human_readable_eq_hrFormat (-2048) "B" (by decide), hrFormat_neg2048]
  · intro n hb hn
    have hconv : |n| < floatConvBound := by
      rw [abs_of_neg hn]
      linarith
    have hn1 : n ≤ -1 := by omega
    have hq : ((n : ℤ) : ℚ) ≤ -1 := by exact_mod_cast hn1
    obtain ⟨r, hr⟩ := fmt1_of_le_neg_one _ (hrLoop_fst_le_neg_one hrUnits _ hq)
    refine ⟨r ++ " " ++ (hrLoop hrUnits (n : ℚ)).2 ++ "B", ?_⟩
    rw [human_readable_eq_hrFormat n "B" hconv, hrFormat, hr]
    simp [String.append_assoc]

/-- C6 witness: the sign-preservation clause applied at `-5`. -/
theorem human_readable_values_and_sign_witness :
    ∃ r : String, human_readable (-5) "B" = some ("-" ++ r) :=
  human_readable_values_and_sign.2.2.2 (-5) (by decide) (by decide)

/-- C10 counterexample: the claim asserts the formatter never raises
for arbitrarily large inputs, but at `10 ^ 400` (beyond double range)
the first division `n /= 1024.0` raises `OverflowError` and no string
is returned. -/
theorem human_readable_pos_overflow :
    human_readable (10 ^ 400) "B" = none := by
  have h1 : ¬ |((10 : ℤ) ^ 400)| < 1024 := by
    rw [abs_of_nonneg (by positivity)]
    norm_num
  have h2 : ¬ |((10 : ℤ) ^ 400)| < floatConvBound := by
    rw [abs_of_nonneg (by positivity), floatConvBound_eq]
    norm_num
  rw [human_readable, if_neg h1, if_neg h2]

/-- C10 (amended): for every integer within the float-convertible
range (`|n| < 2 ^ 1024 - 2 ^ 970`) the division loop runs some
`k ≤ 5` times (one prefix per iteration, `"P"` as the fallback) and
the formatter returns the one-decimal rendering of `n / 1024 ^ k`
with the `k`-th prefix; for every integer at or beyond that range the
first division raises `OverflowError` and no string is returned. -/
theorem human_readable_total (n : ℤ) (u : String) :
    (|n| < floatConvBound →
      ∃ k, k ≤ 5 ∧
        human_readable n u =
          some (fmt1 ((n : ℚ) / 1024 ^ k) ++ " " ++
            ((hrUnits ++ ["P"]).getD k "P") ++ u)) ∧
    (floatConvBound ≤ |n| → human_readable n u = none) := by
  constructor
  · intro h
    obtain ⟨k, hk, heq⟩ := hrLoop_closed hrUnits (n : ℚ)
    refine ⟨k, by simpa [hrUnits] using hk, ?_⟩
    rw [human_readable_eq_hrFormat n u h, hrFormat, heq]
  · intro h
    have hbig : (1024 : ℤ) ≤ floatConvBound := by decide
    have h1 : ¬ |n| < 1024 := not_lt.mpr (le_trans hbig h)
    have h2 : ¬ |n| < floatConvBound := not_lt.mpr h
    rw [human_readable, if_neg h1, if_neg h2]

/-- C10 witness: the in-range clause applied at `3`. -/
theorem human_readable_total_witness :
    ∃ k, k ≤ 5 ∧
      human_readable 3 "B" =
        some (fmt1 (((3 : ℤ) : ℚ) / 1024 ^ k) ++ " " ++
          ((hrUnits ++ ["P"]).getD k "P") ++ "B") :=
  (human_readable_total 3 "B").1 (by decide)

lemma dget_eq_default (m : List (String × ℤ)) (k : String) (d : ℤ)
    (h : ∀ p ∈ m, p.1 ≠ k) : dget m k d = d := by
  rw [dget]
  have hn : m.reverse.find? (fun p => p.1 == k) = none := by
    rw [List.find?_eq_none]
    intro p hp
    simpa using h p (List.mem_reverse.mp hp)
  rw [hn]

/-- C1: aggregation takes hits, misses and arcSize from the numeric
mapping with default 0 for absent keys, sets `total = hits + misses`,
and computes `ratio = hits / total * 100` only under the `total > 0`
guard, with `ratio = 0` when `total = 0` (so it never divides by
zero). -/
theorem aggregate_spec (m : List (String × ℤ)) :
    (aggregate m).hits = dget m ARC_HITS 0 ∧
    (aggregate m).misses = dget m ARC_MISSES 0 ∧
    (aggregate m).arcSize = dget m ARC_SIZE 0 ∧
    ((∀ p ∈ m, p.1 ≠ ARC_HITS) → (aggregate m).hits = 0) ∧
    ((∀ p ∈ m, p.1 ≠ ARC_MISSES) → (aggregate m).misses = 0) ∧
    ((∀ p ∈ m, p.1 ≠ ARC_SIZE) → (aggregate m).arcSize = 0) ∧
    (aggregate m).total = (aggregate m).hits + (aggregate m).misses ∧
    ((aggregate m).total = 0 → (aggregate m).ratio = 0) ∧
    (0 < (aggregate m).total →
      (aggregate m).ratio =
        ((aggregate m).hits : ℚ) / ((aggregate m).total : ℚ) * 100) := by
  refine ⟨rfl, rfl, rfl,
    fun h => dget_eq_default m ARC_HITS 0 h,
    fun h => dget_eq_default m ARC_MISSES 0 h,
    fun h => dget_eq_default m ARC_SIZE 0 h,
    rfl, ?_, ?_⟩
  · intro h0
    have : ¬ 0 < dget m ARC_HITS 0 + dget m ARC_MISSES 0 := by
      have : dget m ARC_HITS 0 + dget m ARC_MISSES 0 = 0 := h0
      omega
    simp only [aggregate, if_neg this]
  · intro hpos
    have hpos' : 0 < dget m ARC_HITS 0 + dget m ARC_MISSES 0 := hpos
    simp only [aggregate, if_pos hpos']

/-- C1 witness: the guarded division applied at a concrete mapping
with positive total. -/
theorem aggregate_spec_witness :
    (aggregate [(ARC_HITS, 900), (ARC_MISSES, 100), (ARC_SIZE, 5)]).ratio =
      ((aggregate [(ARC_HITS, 900), (ARC_MISSES, 100), (ARC_SIZE, 5)]).hits : ℚ) /
        ((aggregate [(ARC_HITS, 900), (ARC_MISSES, 100), (ARC_SIZE, 5)]).total : ℚ) * 100 :=
  (aggregate_spec [(ARC_HITS, 900), (ARC_MISSES, 100), (ARC_SIZE, 5)]).2.2.2.2.2.2.2.2
    (by decide)

lemma foldl_pushHistory (rs : List HistRec) :
    ∀ (h : List HistRec), h.length ≤ 60 →
      List.foldl pushHistory h rs = (h ++ rs).drop (h.length + rs.length - 60) := by
  induction rs with
  | nil =>
    intro h hh
    rw [List.foldl_nil, List.append_nil, List.length_nil]
    rw [Nat.add_zero, Nat.sub_eq_zero_of_le hh, List.drop_zero]
  | cons r rs ih =>
    intro h hh
    rw [List.foldl_cons]
    by_cases hlt : h.length < 60
    · have hstep : pushHistory h r = h ++ [r] := by
        rw [pushHistory]
        simp only [List.length_append, List.length_singleton]
        rw [if_neg (by omega)]
      rw [hstep, ih _ (by simp; omega)]
      have e1 : (h ++ [r]) ++ rs = h ++ r :: rs := by simp
      have e2 : (h ++ [r]).length + rs.length - 60 =
          h.length + (r :: rs).length - 60 := by simp; omega
      rw [e1, e2]
    · have h60 : h.length = 60 := le_antisymm hh (not_lt.mp hlt)
      obtain ⟨a, t, rfl⟩ : ∃ a t, h = a :: t := by
        cases h with
        | nil => simp at h60
        | cons a t => exact ⟨a, t, rfl⟩
      have h60' : t.length + 1 = 60 := by simpa using h60
      have hstep : pushHistory (a :: t) r = t ++ [r] := by
        rw [pushHistory]
        simp only [List.cons_append, List.length_cons, List.length_append,
          List.length_singleton]
        rw [if_pos (by omega), List.tail_cons]
      rw [hstep, ih _ (by simp; omega)]
      have e2 : (t ++ [r]).length + rs.length - 60 = rs.length := by
        simp; omega
      have e3 : (a :: t).length + (r :: rs).length - 60 = rs.length + 1 := by
        simp; omega
      rw [e2, e3]
      simp [List.append_assoc]

/-- C2: the history buffer holds at most sixty entries and evicts one
per append: appending 65 records to an empty buffer retains exactly
the 60 most recent in append order, and a single append to a full
buffer drops exactly the oldest entry. -/
theorem history_capacity_fifo :
    (∀ rs : List HistRec, rs.length = 65 →
        List.foldl pushHistory [] rs = rs.drop 5 ∧
        (List.foldl pushHistory [] rs).length = 60) ∧
    (∀ (h : List HistRec) (r : HistRec), h.length = 60 →
        pushHistory h r = h.tail ++ [r]) := by
  constructor
  · intro rs h65
    have := foldl_pushHistory rs [] (by simp)
    rw [List.nil_append, List.length_nil, Nat.zero_add, h65] at this
    refine ⟨this, ?_⟩
    rw [this, List.length_drop, h65]
  · intro h r h60
    obtain ⟨a, t, rfl⟩ : ∃ a t, h = a :: t := by
      cases h with
      | nil => simp at h60
      | cons a t => exact ⟨a, t, rfl⟩
    simp only [List.length_cons] at h60
    rw [pushHistory]
    simp only [List.cons_append, List.length_cons, List.length_append,
      List.length_singleton]
    rw [if_pos (by omega), List.tail_cons, List.tail_cons]

/-- C2 witness: 65 records pushed onto the empty buffer. -/
theorem history_capacity_fifo_witness :
    List.foldl pushHistory [] (List.replicate 65 (⟨1, 2, 3⟩ : HistRec)) =
      (List.replicate 65 (⟨1, 2, 3⟩ : HistRec)).drop 5 ∧
    (List.foldl pushHistory [] (List.replicate 65 (⟨1, 2, 3⟩ : HistRec))).length = 60 :=
  history_capacity_fifo.1 _ (by rw [List.length_replicate])

/-- C3: the summary is flagged low exactly for ratios in the open
interval `(0, 90)`; at the boundary, `hits=90, misses=10` gives ratio
90 and no flag, while `hits=89, misses=11` gives ratio 89 and the
flag. -/
theorem low_flag_boundary :
    (∀ m : List (String × ℤ),
        isLow (aggregate m).ratio = true ↔
          0 < (aggregate m).ratio ∧ (aggregate m).ratio < 90) ∧
    (aggregate [(ARC_HITS, 90), (ARC_MISSES, 10)]).ratio = 90 ∧
    isLow (aggregate [(ARC_HITS, 90), (ARC_MISSES, 10)]).ratio = false ∧
    (aggregate [(ARC_HITS, 89), (ARC_MISSES, 11)]).ratio = 89 ∧
    isLow (aggregate [(ARC_HITS, 89), (ARC_MISSES, 11)]).ratio = true := by
  have hr90 : (aggregate [(ARC_HITS, 90), (ARC_MISSES, 10)]).ratio = 90 := by
    have hh : dget [(ARC_HITS, 90), (ARC_MISSES, 10)] ARC_HITS 0 = 90 := by decide
    have hm : dget [(ARC_HITS, 90), (ARC_MISSES, 10)] ARC_MISSES 0 = 10 := by decide
    simp only [aggregate, hh, hm]
    norm_num
  have hr89 : (aggregate [(ARC_HITS, 89), (ARC_MISSES, 11)]).ratio = 89 := by
    have hh : dget [(ARC_HITS, 89), (ARC_MISSES, 11)] ARC_HITS 0 = 89 := by decide
    have hm : dget [(ARC_HITS, 89), (ARC_MISSES, 11)] ARC_MISSES 0 = 11 := by decide
    simp only [aggregate, hh, hm]
    norm_num
  refine ⟨?_, hr90, ?_, hr89, ?_⟩
  · intro m
    rw [isLow, LOW_RATIO_THRESHOLD]
    simp [Bool.and_eq_true, decide_eq_true_iff, and_comm]
  · rw [hr90, isLow, LOW_RATIO_THRESHOLD]
    norm_num
  · rw [hr89, isLow, LOW_RATIO_THRESHOLD]
    norm_num

/-- C3 witness: the boundary instance `hits=90, misses=10` is not
flagged. -/
theorem low_flag_boundary_witness :
    isLow (aggregate [(ARC_HITS, 90), (ARC_MISSES, 10)]).ratio = false :=
  low_flag_boundary.2.2.1

lemma parseLine_isSome (l : String) : (parseLine l).isSome = hasSep l := by
  rw [parseLine, hasSep]
  cases splitSep l <;> rfl

lemma length_filterMap_parseLine (ls : List String) :
    (ls.filterMap parseLine).length = (ls.filter (fun l => hasSep l)).length := by
  induction ls with
  | nil => rfl
  | cons l t ih =>
    rw [List.filterMap_cons, List.filter_cons, ← parseLine_isSome l]
    cases h : parseLine l
    · simpa using ih
    · simpa using ih

/-- C7: parsing keeps exactly the lines containing `": "`: the entry
count equals the count of separator-bearing lines, a line without the
separator is skipped (no error), and a line with it contributes one
entry with key and value stripped of surrounding whitespace. -/
theorem parse_line_count :
    (∀ out : String,
        (entriesOf out).length =
          ((splitlines out).filter (fun l => hasSep l)).length) ∧
    (∀ l : String, hasSep l = false → parseLine l = none) ∧
    (∀ (l k v : String), splitSep l = some (k, v) →
        parseLine l = some (pyStrip k, pyStrip v)) := by
  refine ⟨fun out => length_filterMap_parseLine (splitlines out), ?_, ?_⟩
  · intro l h
    rw [parseLine]
    rw [hasSep] at h
    cases hs : splitSep l
    · rfl
    · rw [hs] at h
      simp at h
  · intro l k v h
    rw [parseLine, h]
    rfl

/-- C7 witness: a separator-free line parses to nothing. -/
theorem parse_line_count_witness : parseLine "nonsense" = none :=
  parse_line_count.2.1 "nonsense" (by decide)

lemma updateStoreCore_eq (toggle : Bool) (out : String) :
    updateStoreCore toggle out =
      ((entriesOf out).map (fun kv => (kv.1, displayVal toggle kv.2)),
       (entriesOf out).filterMap
         (fun kv => (parseInt? kv.2).map (fun n => (kv.1, n)))) := by
  rw [updateStoreCore]
  have main : ∀ (ls : List (String × String)) (a : List (String × String))
      (b : List (String × ℤ)),
      ls.foldl
        (fun acc kv =>
          match parseInt? kv.2 with
          | some n => (acc.1 ++ [(kv.1, displayVal toggle kv.2)], acc.2 ++ [(kv.1, n)])
          | none => (acc.1 ++ [(kv.1, displayVal toggle kv.2)], acc.2))
        (a, b) =
      (a ++ ls.map (fun kv => (kv.1, displayVal toggle kv.2)),
       b ++ ls.filterMap (fun kv => (parseInt? kv.2).map (fun n => (kv.1, n)))) := by
    intro ls
    induction ls with
    | nil => intro a b; simp
    | cons kv t ih =>
      intro a b
      rw [List.foldl_cons]
      rcases h : parseInt? kv.2 with _ | n
      · simp only [h]
        rw [ih]
        simp [h]
      · simp only [h]
        rw [ih]
        simp [h]
  simpa using main (entriesOf out) [] []

/-- C9 counterexample: on the snapshot parsed from `"a: 1"` (with the
unit toggle off) every entry is numeric, so the numeric key set
equals the entries key set and is not a strict subset of it. -/
theorem numeric_keys_not_strict :
    ¬ (((updateStoreCore false "a: 1").2.map Prod.fst).toFinset ⊂
        ((updateStoreCore false "a: 1").1.map Prod.fst).toFinset) := by decide

/-- C9 (amended): every numeric entry's key occurs among the entry
keys (a subset, not necessarily strict), and carries the successfully
parsed integer value of that entry. -/
theorem numeric_keys_subset (toggle : Bool) (out : String) (p : String × ℤ)
    (hp : p ∈ (updateStoreCore toggle out).2) :
    p.1 ∈ (updateStoreCore toggle out).1.map Prod.fst ∧
    ∃ v, (p.1, v) ∈ entriesOf out ∧ parseInt? v = some p.2 := by
  rw [updateStoreCore_eq] at hp ⊢
  simp only [List.mem_filterMap] at hp
  obtain ⟨kv, hkv, hg⟩ := hp
  obtain ⟨n, hn, hpn⟩ := Option.map_eq_some'.mp hg
  have h1 : p.1 = kv.1 := by rw [← hpn]
  have h2 : p.2 = n := by rw [← hpn]
  constructor
  · simp only [List.map_map]
    rw [h1]
    exact List.mem_map_of_mem _ hkv
  · refine ⟨kv.2, ?_, ?_⟩
    · have : (p.1, kv.2) = kv := by rw [h1]
      rw [this]
      exact hkv
    · rw [h2]
      exact hn

/-- C9 witness: the amended subset property at a concrete snapshot
with one numeric and one non-numeric line. -/
theorem numeric_keys_subset_witness :
    (("a", 1) : String × ℤ).1 ∈
      (updateStoreCore false "a: 1\nb: x").1.map Prod.fst ∧
    ∃ v, ((("a", 1) : String × ℤ).1, v) ∈ entriesOf "a: 1\nb: x" ∧
      parseInt? v = some (("a", 1) : String × ℤ).2 :=
  numeric_keys_subset false "a: 1\nb: x" ("a", 1) (by decide)

/-- C8 counterexample: a numeric mapping with a negative hit counter
(which the parser accepts, e.g. from the line
`"kstat.zfs.misc.arcstats.hits: -1"`) drives the ratio to `-100`,
outside `[0, 100]`. -/
theorem ratio_out_of_range_on_negative :
    ¬ (0 ≤ (aggregate [(ARC_HITS, -1), (ARC_MISSES, 2)]).ratio ∧
       (aggregate [(ARC_HITS, -1), (ARC_MISSES, 2)]).ratio ≤ 100) := by
  have hh : dget [(ARC_HITS, -1), (ARC_MISSES, 2)] ARC_HITS 0 = -1 := by decide
  have hm : dget [(ARC_HITS, -1), (ARC_MISSES, 2)] ARC_MISSES 0 = 2 := by decide
  have hr : (aggregate [(ARC_HITS, -1), (ARC_MISSES, 2)]).ratio = -100 := by
    simp only [aggregate, hh, hm]
    norm_num
  rw [hr]
  norm_num

/-- C8 (amended): whenever the hit and miss counters of the numeric
mapping are nonnegative, the computed ratio lies in `[0, 100]`. -/
theorem ratio_in_range (m : List (String × ℤ))
    (hh : 0 ≤ dget m ARC_HITS 0) (hm : 0 ≤ dget m ARC_MISSES 0) :
    0 ≤ (aggregate m).ratio ∧ (aggregate m).ratio ≤ 100 := by
  by_cases ht : 0 < dget m ARC_HITS 0 + dget m ARC_MISSES 0
  · have hq_pos : (0 : ℚ) < ((dget m ARC_HITS 0 + dget m ARC_MISSES 0 : ℤ) : ℚ) := by
      exact_mod_cast ht
    have hh' : (0 : ℚ) ≤ ((dget m ARC_HITS 0 : ℤ) : ℚ) := by exact_mod_cast hh
    have hle : ((dget m ARC_HITS 0 : ℤ) : ℚ) ≤
        ((dget m ARC_HITS 0 + dget m ARC_MISSES 0 : ℤ) : ℚ) := by
      have : dget m ARC_HITS 0 ≤ dget m ARC_HITS 0 + dget m ARC_MISSES 0 := by omega
      exact_mod_cast this
    have hdiv1 : ((dget m ARC_HITS 0 : ℤ) : ℚ) /
        ((dget m ARC_HITS 0 + dget m ARC_MISSES 0 : ℤ) : ℚ) ≤ 1 :=
      (div_le_one hq_pos).mpr hle
    have hdiv0 : (0 : ℚ) ≤ ((dget m ARC_HITS 0 : ℤ) : ℚ) /
        ((dget m ARC_HITS 0 + dget m ARC_MISSES 0 : ℤ) : ℚ) :=
      div_nonneg hh' hq_pos.le
    constructor
    · simp only [aggregate, if_pos ht]
      nlinarith
    · simp only [aggregate, if_pos ht]
      nlinarith
  · simp only [aggregate, if_neg ht]
    norm_num

/-- C8 witness: the amended bound at a concrete nonnegative
mapping. -/
theorem ratio_in_range_witness :
    0 ≤ (aggregate [(ARC_HITS, 1), (ARC_MISSES, 3)]).ratio ∧
    (aggregate [(ARC_HITS, 1), (ARC_MISSES, 3)]).ratio ≤ 100 :=
  ratio_in_range [(ARC_HITS, 1), (ARC_MISSES, 3)] (by decide) (by decide)

/-- C4: when the fetch fails, only the two labels change: the summary
area shows the error message, the refresh label shows the failed
state, the snapshot (store, numeric mapping, last raw text, last
time) and the history are untouched, and the tick handler returns
`True` regardless of the outcome, so the timer always fires again. -/
theorem error_path_preserves_state (s : AppState) (e : String) :
    ((refresh_stats s (.err e)).1.numeric_stats = s.numeric_stats ∧
      (refresh_stats s (.err e)).1.store = s.store ∧
      (refresh_stats s (.err e)).1.history = s.history ∧
      (refresh_stats s (.err e)).1.last_output = s.last_output ∧
      (refresh_stats s (.err e)).1.last_update_time = s.last_update_time ∧
      (refresh_stats s (.err e)).1.unit_toggle = s.unit_toggle) ∧
    (refresh_stats s (.err e)).1.summary_label = "Error fetching stats: " ++ e ∧
    (refresh_stats s (.err e)).1.refresh_label = "Update failed" ∧
    ∀ r : FetchResult, (refresh_stats s r).2 = true :=
  ⟨⟨rfl, rfl, rfl, rfl, rfl, rfl⟩, rfl, rfl, fun _ => rfl⟩

/-- C4 witness: the error path at a concrete state and message. -/
theorem error_path_preserves_state_witness :
    (refresh_stats initState (.err "boom")).1.summary_label =
      "Error fetching stats: " ++ "boom" :=
  (error_path_preserves_state initState "boom").2.1

/-- C5: re-running `update_store` on the last output (as the
display-mode toggle does) leaves the parsed snapshot unchanged but
appends a history record on every run: after one refresh of
`"a: 1"` the history holds 1 record, and after toggling the unit
checkbox off and back on it holds 3, although store, numeric mapping
and last output are identical. -/
theorem rerun_update_store_grows_history :
    (update_store initState "a: 1" (some "t")).history.length = 1 ∧
    (on_unit_toggled (on_unit_toggled
        (update_store initState "a: 1" (some "t")) false) true).numeric_stats =
      (update_store initState "a: 1" (some "t")).numeric_stats ∧
    (on_unit_toggled (on_unit_toggled
        (update_store initState "a: 1" (some "t")) false) true).store =
      (update_store initState "a: 1" (some "t")).store ∧
    (on_unit_toggled (on_unit_toggled
        (update_store initState "a: 1" (some "t")) false) true).last_output =
      (update_store initState "a: 1" (some "t")).last_output ∧
    (on_unit_toggled (on_unit_toggled
        (update_store initState "a: 1" (some "t")) false) true).history.length = 3 :=
  ⟨by decide, rfl, rfl, rfl, by decide⟩

end ArcStats
